import Mathlib

/-!
Verification development for a Go reimplementation of LibGGPK3 bundle
reading.  The definitions below are a shallow embedding of the bundle
codec (pkg/bundle), the index reader and its path dictionary decoder.
Go strings and byte slices are modelled as `List Nat` (each element a
byte value), Go `int32`/`int64` fields as `Int` (the stated theorems
carry range hypotheses that keep every arithmetic step inside the
32-bit range, so two-complement wraparound never fires on the inputs
considered), and Go `(value, error)` returns as `Except String`.
-/

deriving instance DecidableEq for Except

set_option maxRecDepth 8000

/-- `true` exactly when an `Except` value is `ok`. -/
def excIsOk {ε α : Type} : Except ε α → Bool
  | .ok _ => true
  | .error _ => false

/-- Little-endian unsigned 32-bit read at byte offset `off`; out-of-range
reads see byte 0 (callers only use it after a length check).  The `% 256`
normalises model bytes, which Go guarantees by typing. -/
def readU32le (l : List Nat) (off : Nat) : Nat :=
  l.getD off 0 % 256 + 256 * (l.getD (off + 1) 0 % 256) +
    65536 * (l.getD (off + 2) 0 % 256) + 16777216 * (l.getD (off + 3) 0 % 256)

/-- Interpret an unsigned 32-bit value as Go `int32` (two-complement). -/
def toI32 (n : Nat) : Int :=
  if n % 4294967296 < 2147483648 then ((n % 4294967296 : Nat) : Int)
  else ((n % 4294967296 : Nat) : Int) - 4294967296

/-- Little-endian signed 32-bit read. -/
def readI32 (l : List Nat) (off : Nat) : Int :=
  toI32 (readU32le l off)

/-- Little-endian unsigned 64-bit read at byte offset `off`. -/
def readU64le (l : List Nat) (off : Nat) : Nat :=
  readU32le l off + 4294967296 * readU32le l (off + 4)

/-- Interpret an unsigned 64-bit value as Go `int64` (two-complement). -/
def toI64 (n : Nat) : Int :=
  if n % 18446744073709551616 < 9223372036854775808 then
    ((n % 18446744073709551616 : Nat) : Int)
  else ((n % 18446744073709551616 : Nat) : Int) - 18446744073709551616

/-- Little-endian signed 64-bit read. -/
def readI64 (l : List Nat) (off : Nat) : Int :=
  toI64 (readU64le l off)

/-- Serialize a `Nat` as 4 little-endian bytes (test-vector builder). -/
def u32bytes (n : Nat) : List Nat :=
  [n % 256, n / 256 % 256, n / 65536 % 256, n / 16777216 % 256]

/-- Serialize a `Nat` as 8 little-endian bytes (test-vector builder). -/
def u64bytes (n : Nat) : List Nat :=
  u32bytes (n % 4294967296) ++ u32bytes (n / 4294967296)

/-! ## Hashing (src/unnamed/part_001 lines 431-478) -/

/-- Model of the Go standard library `hash/fnv` `New64` digest (64-bit
FNV-1: multiply by the prime, then xor the byte). -/
def fnv1Hash64 (data : List Nat) : Nat :=
  data.foldl (fun h b => h * 0x100000001B3 % 18446744073709551616 ^^^ b % 256)
    0xCBF29CE484222325

/-- `murmurHash64A` from the source: despite its name it is an FNV-1
placeholder that ignores the seed (the source comment says it produces
wrong hashes for Murmur-based indices). -/
def murmurHash64A (data : List Nat) (_seed : Nat) : Nat :=
  fnv1Hash64 data

/-- `fnv1a64Hash` from the source: strip one trailing slash (byte 47),
lowercase ASCII uppercase letters, fold 64-bit FNV-1a, then fold the
byte 43 (the plus sign) twice more. -/
def fnv1a64Hash (utf8Name : List Nat) : Nat :=
  let dataToHash :=
    if utf8Name.length > 0 ∧ utf8Name.getLast? = some 47 then utf8Name.dropLast
    else utf8Name
  let fnvPrime := 0x100000001B3
  let hash := dataToHash.foldl
    (fun hash b =>
      let char := if 65 ≤ b ∧ b ≤ 90 then b + 32 else b
      (hash ^^^ char) * fnvPrime % 18446744073709551616)
    0xCBF29CE484222325
  let hash := (hash ^^^ 43) * fnvPrime % 18446744073709551616
  (hash ^^^ 43) * fnvPrime % 18446744073709551616

/-- `IndexDirectoryRecord` from pkg/bundle/records.go. -/
structure IndexDirectoryRecord where
  PathHash : Nat
  Offset : Int
  Size : Int
  RecursiveSize : Int
deriving DecidableEq, Repr, Inhabited

/-- `IndexFileRecord` from pkg/bundle/records.go; the `BundleRecord`
pointer is modelled by the bundle index it refers to. -/
structure IndexFileRecord where
  PathHash : Nat
  BundleIndex : Nat
  Offset : Int
  Size : Int
  Path : List Nat
deriving DecidableEq, Repr

/-- The `Index` state from the source (the fields the verified
operations read or write).  `DirectoryBundleData = none` models a Go
nil slice; the Go map `FilesByPathHash` is an association list. -/
structure Index where
  FilesByPathHash : List (Nat × IndexFileRecord)
  Directories : List IndexDirectoryRecord
  DirectoryBundleData : Option (List Nat)
  pathsParsed : Bool
deriving DecidableEq, Repr

/-- ASCII lowercase of one byte: Go `strings.ToLower` restricted to the
ASCII range, which is the only range exercised by the index paths and by
every theorem below. -/
def asciiToLower (b : Nat) : Nat :=
  if 65 ≤ b ∧ b ≤ 90 then b + 32 else b

/-- Model of Go `strings.ToLower` on byte strings (ASCII range). -/
def goToLower (s : List Nat) : List Nat :=
  s.map asciiToLower

/-- `Index.NameHash` from the source: strip one trailing slash, then
dispatch on the first directory record hash; `0xF42A94E69CFF42FE`
selects the (placeholder) murmur path over the lowercased bytes with
seed `0x1337B33F`, `0x07E47507B4A92E53` selects the custom FNV-1a-64,
anything else is an error. -/
def Index.NameHash (idx : Index) (path : List Nat) : Except String Nat :=
  if idx.Directories = [] then
    .error "index directories not loaded, cannot determine hash algorithm"
  else
    let path :=
      if path.length > 0 ∧ path.getLast? = some 47 then path.dropLast else path
    if (idx.Directories.headD default).PathHash = 0xF42A94E69CFF42FE then
      .ok (murmurHash64A (goToLower path) 0x1337B33F)
    else if (idx.Directories.headD default).PathHash = 0x07E47507B4A92E53 then
      .ok (fnv1a64Hash path)
    else .error "unknown namehash algorithm"

/-! ## Reference definitions written from the specification text -/

/-- Modelled from the spec: strip one trailing slash if present
(section 4.4 of the specification). -/
def stripOneTrailingSlash (l : List Nat) : List Nat :=
  if l.getLast? = some 47 then l.dropLast else l

/-- Modelled from the spec: the custom FNV-1a-64 of section 4.4 —
strip at most one trailing slash, lowercase only ASCII uppercase,
fold standard FNV-1a-64 (offset 0xCBF29CE484222325, prime
0x100000001B3) over the bytes, then xor-and-multiply twice more with
byte 43 (the plus sign). -/
def fnv1a64RefSpec (l : List Nat) : Nat :=
  let d := (stripOneTrailingSlash l).map asciiToLower
  let h := d.foldl
    (fun h b => (h ^^^ b) * 0x100000001B3 % 18446744073709551616)
    0xCBF29CE484222325
  let h := (h ^^^ 43) * 0x100000001B3 % 18446744073709551616
  (h ^^^ 43) * 0x100000001B3 % 18446744073709551616

/-- Modelled from the spec: one block step of canonical MurmurHash64A
(m = 0xc6a4a7935bd1e995, r = 47); the canonical algorithm is absent
from the source, which ships an FNV placeholder in its place. -/
def murmurRefBlocks : List Nat → Nat → Nat
  | b0 :: b1 :: b2 :: b3 :: b4 :: b5 :: b6 :: b7 :: rest, h =>
    let m := 0xc6a4a7935bd1e995
    let k := b0 + 256 * b1 + 65536 * b2 + 16777216 * b3 +
      4294967296 * b4 + 1099511627776 * b5 + 281474976710656 * b6 +
      72057594037927936 * b7
    let k := k * m % 18446744073709551616
    let k := k ^^^ k / 140737488355328
    let k := k * m % 18446744073709551616
    murmurRefBlocks rest ((h ^^^ k) * m % 18446744073709551616)
  | tail, h =>
    let m := 0xc6a4a7935bd1e995
    let t := (List.range tail.length).foldl
      (fun acc i => acc + tail.getD i 0 * 256 ^ i) 0
    let h := if tail.length = 0 then h
      else (h ^^^ t) * m % 18446744073709551616
    let h := h ^^^ h / 140737488355328
    let h := h * m % 18446744073709551616
    h ^^^ h / 140737488355328

/-- Modelled from the spec: canonical 64-bit MurmurHash2 (MurmurHash64A)
by Austin Appleby with m = 0xc6a4a7935bd1e995, r = 47, tail mixing and
the final xor-shift mix, seeded; section 4.4 of the specification. -/
def murmurHash64ARefSpec (data : List Nat) (seed : Nat) : Nat :=
  murmurRefBlocks data
    ((seed ^^^ data.length * 0xc6a4a7935bd1e995 % 18446744073709551616) %
      18446744073709551616)

/-! ## Bundle codec (src/unnamed/part_001 lines 18-227, records.go) -/

/-- `BundleHeader` from pkg/bundle/records.go (60 bytes on disk). -/
structure BundleHeader where
  UncompressedSize : Int
  CompressedSize : Int
  HeadSize : Int
  Compressor : Int
  Unknown1 : Int
  UncompressedSizeLong : Int
  CompressedSizeLong : Int
  ChunkCount : Int
  ChunkSize : Int
  Unknown3 : Int
  Unknown4 : Int
  Unknown5 : Int
  Unknown6 : Int
deriving DecidableEq, Repr

/-- An opened `Bundle`.  `isOpen = false` models a nil `File` field;
`fileData` is the content of the underlying file. -/
structure Bundle where
  isOpen : Bool
  fileData : List Nat
  Header : BundleHeader
  CompressedChunkSizes : List Int
  cachedContent : Option (List Nat)
deriving DecidableEq, Repr

/-- Decode the 60-byte little-endian header, field by field in disk
order (the `binary.Read` call in `OpenBundleFile`). -/
def decodeBundleHeader (l : List Nat) : BundleHeader where
  UncompressedSize := readI32 l 0
  CompressedSize := readI32 l 4
  HeadSize := readI32 l 8
  Compressor := readI32 l 12
  Unknown1 := readI32 l 16
  UncompressedSizeLong := readI64 l 20
  CompressedSizeLong := readI64 l 28
  ChunkCount := readI32 l 36
  ChunkSize := readI32 l 40
  Unknown3 := readI32 l 44
  Unknown4 := readI32 l 48
  Unknown5 := readI32 l 52
  Unknown6 := readI32 l 56

/-- The per-chunk compressed sizes: `ChunkCount` signed 32-bit values
read from byte offset 60 on. -/
def decodeChunkSizes (l : List Nat) (n : Nat) : List Int :=
  (List.range n).map fun i => readI32 l (60 + 4 * i)

/-- `OpenBundleFile` from the source, over the file bytes.  It reads the
60-byte header, rejects a negative or over-large `ChunkCount`, then
reads the chunk-size table; `head_size` and `UncompressedSize` are not
inspected here.  The `Record` back-pointer sync is not modelled. -/
def OpenBundleFile (file : List Nat) : Except String Bundle :=
  if file.length < 60 then .error "failed to read bundle header"
  else
    let hdr := decodeBundleHeader file
    if hdr.ChunkCount < 0 then .error "invalid chunk count"
    else if hdr.ChunkCount > 1000000 then .error "unreasonable chunk count"
    else if 0 < hdr.ChunkCount ∧ file.length < 60 + 4 * hdr.ChunkCount.toNat then
      .error "failed to read compressed chunk sizes"
    else .ok
      { isOpen := true
        fileData := file
        Header := hdr
        CompressedChunkSizes := decodeChunkSizes file hdr.ChunkCount.toNat
        cachedContent := none }

/-- `BundleHeader.GetLastChunkUncompressedSize` from the source. -/
def BundleHeader.GetLastChunkUncompressedSize (h : BundleHeader) : Int :=
  if h.ChunkCount = 0 then 0
  else h.UncompressedSize - h.ChunkSize * (h.ChunkCount - 1)

/-- The uncompressed target size the `ReadFull` loop computes for chunk
`i` (`ChunkSize` except for the last chunk). -/
def chunkTarget (h : BundleHeader) (i : Nat) : Int :=
  if i = h.ChunkCount.toNat - 1 then h.GetLastChunkUncompressedSize
  else h.ChunkSize

/-- `Seek` + `io.ReadFull`: read `size` bytes at `off`; `none` models
the I/O error when the file is too short (or the offset negative). -/
def readFileBytes (file : List Nat) (off size : Int) : Option (List Nat) :=
  if 0 ≤ off ∧ 0 ≤ size ∧ off.toNat + size.toNat ≤ file.length then
    some ((file.drop off.toNat).take size.toNat)
  else none

/-- `copy(buf[off : off + chunk.length], chunk)` for a full-width copy:
overwrite `chunk.length` bytes of `buf` starting at `off`. -/
def writeAt (buf : List Nat) (off : Nat) (chunk : List Nat) : List Nat :=
  buf.take off ++ chunk ++ buf.drop (off + chunk.length)

/-- The chunk loop of `Bundle.ReadFull` (source lines 158-223).  `oodle`
is the external Oodle facade, `i` the loop counter, `fileOff` the file
offset of the next chunk payload, `outOff` the write offset into the
output buffer `buf`.  The Go loop runs while `i < ChunkCount`; here the
remaining iteration count `r = ChunkCount - i` is passed alongside `i`,
which makes the recursion structural and is exact, so the two loop forms
agree step for step.  The source indexes `CompressedChunkSizes[i]` after
`ReadFull` checked its length, so `getD` never hits its default. -/
def readFullLoop (oodle : List Nat → Int → Except String (List Nat))
    (b : Bundle) : Nat → Nat → Int → Int → List Nat → Except String (List Nat)
  | 0, _i, _fileOff, _outOff, buf => .ok buf
  | r + 1, i, fileOff, outOff, buf =>
    let csize := b.CompressedChunkSizes.getD i 0
    if csize < 0 then .error "invalid negative compressed chunk size"
    else
      let target := chunkTarget b.Header i
      if target < 0 then .error "negative uncompressed target size"
      else if target = 0 ∧ csize ≠ 0 then
        .error "uncompressed target size is 0 but compressed chunk size is not"
      else if target = 0 ∧ csize = 0 then
        readFullLoop oodle b r (i + 1) (fileOff + csize) outOff buf
      else if csize = 0 then
        .error "compressed chunk size is 0 but uncompressed target size is not"
      else
        match readFileBytes b.fileData fileOff csize with
        | none => .error "failed to read compressed chunk"
        | some chunkBytes =>
          if outOff + target > (buf.length : Int) then
            .error "output buffer too small for chunk"
          else if b.Header.Compressor = 3 then
            if csize ≠ target then
              .error "mismatch in chunk size for OodleCompressorNone"
            else
              readFullLoop oodle b r (i + 1) (fileOff + csize) (outOff + target)
                (writeAt buf outOff.toNat chunkBytes)
          else
            match oodle chunkBytes target with
            | .error e => .error e
            | .ok dec =>
              if dec.length ≠ target.toNat then
                .error "Oodle decompression wrote the wrong number of bytes"
              else
                readFullLoop oodle b r (i + 1) (fileOff + csize) (outOff + target)
                  (writeAt buf outOff.toNat dec)

/-- `Bundle.ReadFull` from the source (a single call: the write of
`cachedContent` after a successful decode is the callers concern, the
cache field here is the state this call observes). -/
def Bundle.ReadFull (oodle : List Nat → Int → Except String (List Nat))
    (b : Bundle) : Except String (List Nat) :=
  if b.isOpen = false then .error "bundle file is closed or not opened"
  else if b.Header.UncompressedSize = 0 then .ok []
  else if b.Header.UncompressedSize < 0 then
    .error "bundle header reports negative uncompressed size"
  else
    match b.cachedContent with
    | some c => .ok c
    | none =>
      if b.Header.ChunkCount = 0 then
        .error "bundle has uncompressed size > 0 but 0 chunks"
      else if 0 < b.Header.ChunkCount ∧
          b.CompressedChunkSizes.length ≠ b.Header.ChunkCount.toNat then
        .error "header chunk count does not match chunk sizes array"
      else
        readFullLoop oodle b b.Header.ChunkCount.toNat 0
          (60 + b.Header.ChunkCount * 4) 0
          (List.replicate b.Header.UncompressedSize.toNat 0)

/-- `Bundle.ReadAt` from the source: handle the closed and zero-size
cases, bounds-check, decode everything, slice. -/
def Bundle.ReadAt (oodle : List Nat → Int → Except String (List Nat))
    (b : Bundle) (offsetInBundle sizeInBundle : Int) :
    Except String (List Nat) :=
  if b.isOpen = false then .error "bundle file is closed or not opened"
  else if sizeInBundle = 0 then .ok []
  else if sizeInBundle < 0 then .error "invalid size for ReadAt"
  else if offsetInBundle < 0 ∨
      offsetInBundle + sizeInBundle > b.Header.UncompressedSize then
    .error "read offset or size out of bounds"
  else
    match b.ReadFull oodle with
    | .error e => .error e
    | .ok fullData =>
      if offsetInBundle + sizeInBundle > (fullData.length : Int) then
        .error "calculated end of slice is out of bounds"
      else
        .ok ((fullData.drop offsetInBundle.toNat).take sizeInBundle.toNat)

/-! ## Path dictionary decoding (src/unnamed/part_001 lines 590-687) -/

/-- Helper for `readNullTerminatedString`, carrying the number of bytes
accumulated so far (the source errors once the buffer passes 2048). -/
def readNullTerminatedStringAux : List Nat → Nat → Except String (List Nat × List Nat)
  | [], n =>
    .error (if n > 0 then "string not null-terminated before EOF" else "EOF")
  | b :: rest, n =>
    if b = 0 then .ok ([], rest)
    else if n + 1 > 2048 then
      .error "string segment too long, possible malformed data"
    else
      match readNullTerminatedStringAux rest (n + 1) with
      | .ok (seg, rem) => .ok (b :: seg, rem)
      | .error e => .error e

/-- `readNullTerminatedString` from the source, as a function from the
remaining reader content to the segment read plus the content left. -/
def readNullTerminatedString (r : List Nat) :
    Except String (List Nat × List Nat) :=
  readNullTerminatedStringAux r 0

/-- A successful null-terminated read consumes at least the terminator. -/
theorem readNullTerminatedStringAux_rest_lt :
    ∀ (l : List Nat) (n : Nat) (seg rest : List Nat),
      readNullTerminatedStringAux l n = .ok (seg, rest) →
      rest.length < l.length := by
  intro l
  induction l with
  | nil => intro n seg rest h; simp [readNullTerminatedStringAux] at h
  | cons b tl ih =>
    intro n seg rest h
    by_cases hb : b = 0
    · simp [readNullTerminatedStringAux, hb] at h
      simp [h.2]
    · by_cases hn : n + 1 > 2048
      · simp [readNullTerminatedStringAux, hb, hn] at h
      · simp only [readNullTerminatedStringAux, if_neg hb, if_neg hn] at h
        cases hr : readNullTerminatedStringAux tl (n + 1) with
        | error e => rw [hr] at h; simp at h
        | ok p =>
          rw [hr] at h
          simp at h
          have := ih (n + 1) p.1 p.2 (by rw [hr])
          have hrest : rest = p.2 := by
            cases p; simp at h; exact h.2.symm
          simp [hrest, List.length_cons]
          omega

/-- Same bound, phrased for the wrapper. -/
theorem readNullTerminatedString_rest_lt (l seg rest : List Nat)
    (h : readNullTerminatedString l = .ok (seg, rest)) :
    rest.length < l.length :=
  readNullTerminatedStringAux_rest_lt l 0 seg rest h

/-- Go map read `FilesByPathHash[hash]` over the association list. -/
def mapLookup (m : List (Nat × IndexFileRecord)) (k : Nat) :
    Option IndexFileRecord :=
  (m.find? fun e => e.1 == k).map Prod.snd

/-- Assignment through the map pointer: `fileRec.Path = p` for the
record stored under key `k`. -/
def mapSetPath (m : List (Nat × IndexFileRecord)) (k : Nat) (p : List Nat) :
    List (Nat × IndexFileRecord) :=
  m.map fun e => if e.1 == k then (e.1, { e.2 with Path := p }) else e

/-- A Go slice expression `l[lo:hi]`; `none` models the runtime panic
on invalid bounds. -/
def goSlice (l : List Nat) (lo hi : Int) : Option (List Nat) :=
  if 0 ≤ lo ∧ lo ≤ hi ∧ hi ≤ (l.length : Int) then
    some ((l.drop lo.toNat).take (hi - lo).toNat)
  else none

/-- The inner command loop of `Index.ParsePaths` over one directory
block (source lines 609-662).  The state is the remaining block bytes,
`tempSegments`, the `isBase` flag, the (pointer-mutated) file map and
the failed counter.  An error aborts the whole `ParsePaths` call and
carries the map and counter as mutated so far; note that a failed
`readNullTerminatedString` is swallowed with a `break`, ending the
block normally. -/
def parsePathsBlockLoop (idx : Index) (rem : List Nat)
    (tempSegments : List (List Nat)) (isBase : Bool)
    (files : List (Nat × IndexFileRecord)) (failed : Nat) :
    Except (List (Nat × IndexFileRecord) × Nat × String)
      (List (Nat × IndexFileRecord) × Nat) :=
  if h4 : rem.length < 4 then .ok (files, failed)
  else
    let pathPartIndex := readI32 rem 0
    if pathPartIndex = 0 then
      let isBase2 := !isBase
      parsePathsBlockLoop idx (rem.drop 4)
        (if isBase2 then [] else tempSegments) isBase2 files failed
    else
      let ppi := pathPartIndex - 1
      match hnts : readNullTerminatedString (rem.drop 4) with
      | .error _ => .ok (files, failed)
      | .ok (segment, rest2) =>
        if ppi < (tempSegments.length : Int) then
          if ppi < 0 then
            .error (files, failed, "runtime error: index out of range")
          else
            let newSegment := tempSegments.getD ppi.toNat [] ++ segment
            let tempSegments2 := tempSegments.set ppi.toNat newSegment
            if isBase = false then
              match Index.NameHash idx newSegment with
              | .error e => .error (files, failed, e)
              | .ok hsh =>
                match mapLookup files hsh with
                | some _ =>
                  parsePathsBlockLoop idx rest2 tempSegments2 isBase
                    (mapSetPath files hsh newSegment) failed
                | none =>
                  parsePathsBlockLoop idx rest2 tempSegments2 isBase files
                    (failed + 1)
            else
              parsePathsBlockLoop idx rest2 tempSegments2 isBase files failed
        else
          if isBase then
            parsePathsBlockLoop idx rest2 (tempSegments ++ [segment]) isBase
              files failed
          else
            match Index.NameHash idx segment with
            | .error e => .error (files, failed, e)
            | .ok hsh =>
              match mapLookup files hsh with
              | some _ =>
                parsePathsBlockLoop idx rest2 tempSegments isBase
                  (mapSetPath files hsh segment) failed
              | none =>
                parsePathsBlockLoop idx rest2 tempSegments isBase files
                  (failed + 1)
termination_by rem.length
decreasing_by
  all_goals first
    | (simp [List.length_drop]; omega)
    | (have hlt := readNullTerminatedString_rest_lt _ _ _ hnts
       simp [List.length_drop] at hlt
       omega)

/-- The outer loop of `Index.ParsePaths` over the directory records
(source lines 601-663): skip records whose window falls outside the
data, slice the block, run the command loop. -/
def parsePathsDirLoop (idx : Index) (dirData : List Nat) :
    List IndexDirectoryRecord → List (Nat × IndexFileRecord) → Nat →
    Except (List (Nat × IndexFileRecord) × Nat × String)
      (List (Nat × IndexFileRecord) × Nat)
  | [], files, failed => .ok (files, failed)
  | d :: ds, files, failed =>
    if d.Offset < 0 ∨ (dirData.length : Int) < d.Offset + d.Size then
      parsePathsDirLoop idx dirData ds files failed
    else
      match goSlice dirData d.Offset (d.Offset + d.Size) with
      | none => .error (files, failed, "runtime error: slice bounds out of range")
      | some block =>
        match parsePathsBlockLoop idx block [] false files failed with
        | .error e => .error e
        | .ok (files2, failed2) => parsePathsDirLoop idx dirData ds files2 failed2

/-- `Index.ParsePaths` from the source: returns the updated index, the
failed count and the error (if any).  The parsed flag is set on the
early missing-data return and on normal completion, but not on the
abort paths. -/
def Index.ParsePaths (idx : Index) : Index × Nat × Option String :=
  if idx.pathsParsed then (idx, 0, none)
  else if idx.DirectoryBundleData = none ∨ idx.Directories = [] then
    ({ idx with pathsParsed := true }, 0,
      some "directory bundle data or directories metadata is missing, cannot parse paths")
  else
    match parsePathsDirLoop idx (idx.DirectoryBundleData.getD [])
        idx.Directories idx.FilesByPathHash 0 with
    | .error (files, failed, e) =>
      ({ idx with FilesByPathHash := files }, failed, some e)
    | .ok (files, failed) =>
      ({ idx with FilesByPathHash := files, pathsParsed := true }, failed, none)

/-- The lookup tail of `Index.GetFileByPath` (source lines 521-537):
hash the path, try the map, fall back to a linear scan for an exact
path match, and backfill an empty `Path` field on a map hit. -/
def getFileByPathLookup (idx : Index) (path : List Nat) :
    Index × Except String IndexFileRecord :=
  match idx.NameHash path with
  | .error e => (idx, .error ("could not calculate hash for path: " ++ e))
  | .ok hsh =>
    match mapLookup idx.FilesByPathHash hsh with
    | none =>
      match idx.FilesByPathHash.find? (fun e => e.2.Path == path) with
      | some e => (idx, .ok e.2)
      | none => (idx, .error "file not found by path")
    | some fileRec =>
      if fileRec.Path = [] ∧ path ≠ [] then
        ({ idx with FilesByPathHash := mapSetPath idx.FilesByPathHash hsh path },
          .ok { fileRec with Path := path })
      else (idx, .ok fileRec)

/-- `Index.GetFileByPath` from the source, including the implicit
`ParsePaths` call when paths were not parsed yet. -/
def Index.GetFileByPath (idx : Index) (path : List Nat) :
    Index × Except String IndexFileRecord :=
  if idx.pathsParsed = false then
    match idx.ParsePaths with
    | (idx1, _failedCount, some e) => (idx1, .error e)
    | (idx1, _failedCount, none) =>
      if idx1.pathsParsed = false then
        (idx1, .error "paths could not be parsed, cannot find file by path")
      else getFileByPathLookup idx1 path
  else getFileByPathLookup idx path

/-! ## Concrete fixtures -/

/-- An Oodle facade that always fails, modelling the native library
being absent; the `NONE` compressor path never consults it. -/
def oodleNever : List Nat → Int → Except String (List Nat) :=
  fun _ _ => .error "could not open Oodle library"

/-- An index whose first directory record selects the murmur hash
path. -/
def idxMurmur : Index where
  FilesByPathHash := []
  Directories := [{ PathHash := 0xF42A94E69CFF42FE, Offset := 0, Size := 0, RecursiveSize := 0 }]
  DirectoryBundleData := none
  pathsParsed := false

/-- The 60-byte header of the scenario-3 bundle (uncompressed size 150,
compressor `NONE = 3`, 2 chunks of chunk size 100) with an arbitrary
`head_size` field, followed by the two chunk sizes 100 and 50. -/
def scenario3Head (headSize : Nat) : List Nat :=
  u32bytes 150 ++ u32bytes 150 ++ u32bytes headSize ++ u32bytes 3 ++
    u32bytes 1 ++ u64bytes 150 ++ u64bytes 150 ++ u32bytes 2 ++
    u32bytes 100 ++ u32bytes 0 ++ u32bytes 0 ++ u32bytes 0 ++ u32bytes 0 ++
    u32bytes 100 ++ u32bytes 50

/-- The scenario-3 payload: 100 times byte 65 then 50 times byte 66. -/
def scenario3Data : List Nat :=
  List.replicate 100 65 ++ List.replicate 50 66

/-- The scenario-3 bundle file with its `head_size` field corrupted to
47 (the spec's scenario 4); a valid header would carry 48 + 2*4 = 56. -/
def scenario3BadHeadFile : List Nat :=
  scenario3Head 47 ++ scenario3Data

/-- The well-formed scenario-3 bundle file. -/
def scenario3File : List Nat :=
  scenario3Head 56 ++ scenario3Data

/-- The scenario-3 bundle as the `Bundle` value `OpenBundleFile`
produces for `scenario3File`. -/
def bundle3 : Bundle where
  isOpen := true
  fileData := scenario3File
  Header :=
    { UncompressedSize := 150, CompressedSize := 150, HeadSize := 56
      Compressor := 3, Unknown1 := 1, UncompressedSizeLong := 150
      CompressedSizeLong := 150, ChunkCount := 2, ChunkSize := 100
      Unknown3 := 0, Unknown4 := 0, Unknown5 := 0, Unknown6 := 0 }
  CompressedChunkSizes := [100, 50]
  cachedContent := none

/-! ## C1 -/

/-- C1: the claim reads: for an Index whose first directory record
path hash is 0xF42A94E69CFF42FE, `NameHash(path)` equals canonical
MurmurHash64A of the lowercased slash-stripped path with seed
0x1337B33F.  The source instead ships an FNV-1 placeholder under the
murmur name (its own comment says it produces wrong hashes), so on the
failing input `"a"` (byte 97) `NameHash` returns the FNV-1 digest,
which differs from the canonical murmur value the claim and the spec
require. -/
theorem C1_murmur_placeholder_diverges :
    Index.NameHash idxMurmur [97] = .ok (fnv1Hash64 [97]) ∧
    fnv1Hash64 [97] ≠ murmurHash64ARefSpec [97] 0x1337B33F := by
  constructor
  · decide
  · decide

/-! ## C2 -/

/-- C2 counterexample: the scenario-3 bundle with `head_size = 47`
(everything else valid) opens successfully — `OpenBundleFile` never
checks `head_size`, contradicting the claim that open fails with an
invalid-header-field error before chunk data is read. -/
theorem C2_counterexample_bad_head_size_opens :
    readI32 scenario3BadHeadFile 8 = 47 ∧
    excIsOk (OpenBundleFile scenario3BadHeadFile) = true := by
  constructor
  · decide
  · decide

/-- C2 amended: for a file large enough to hold the header and the
chunk-size table, `OpenBundleFile` succeeds exactly when the decoded
`chunk_count` (the signed 32-bit field at byte offset 36) lies in
[0, 1000000]; neither `head_size` nor `uncompressed_size` is
validated at open. -/
theorem C2_open_validates_only_chunk_count (file : List Nat)
    (h60 : 60 ≤ file.length)
    (hsz : 0 ≤ readI32 file 36 → 60 + 4 * (readI32 file 36).toNat ≤ file.length) :
    excIsOk (OpenBundleFile file) = true ↔
      0 ≤ readI32 file 36 ∧ readI32 file 36 ≤ 1000000 := by
  have hcc : (decodeBundleHeader file).ChunkCount = readI32 file 36 := rfl
  unfold OpenBundleFile
  rw [if_neg (by omega)]
  by_cases h1 : (decodeBundleHeader file).ChunkCount < 0
  · rw [if_pos h1]
    simp only [excIsOk]
    constructor
    · intro h; cases h
    · intro h; rw [hcc] at h1; omega
  · rw [if_neg h1]
    by_cases h2 : (decodeBundleHeader file).ChunkCount > 1000000
    · rw [if_pos h2]
      simp only [excIsOk]
      constructor
      · intro h; cases h
      · intro h; rw [hcc] at h2; omega
    · rw [if_neg h2]
      rw [if_neg]
      · simp only [excIsOk, true_iff]
        rw [hcc] at h1 h2
        omega
      · intro hcon
        rcases hcon with ⟨hpos, hlen⟩
        rw [hcc] at hpos
        have := hsz (le_of_lt hpos)
        rw [hcc] at hlen
        omega

/-- C2 witness: a 60-byte all-zero file (chunk count 0) opens
successfully, via the amended theorem. -/
theorem C2_witness :
    excIsOk (OpenBundleFile (List.replicate 60 0)) = true :=
  (C2_open_validates_only_chunk_count (List.replicate 60 0) (by decide)
    (by intro _; decide)).mpr (by decide)

/-! ## C4 -/

/-- C4: the source `fnv1a64Hash` agrees with the reference definition
written from the spec (strip at most one trailing slash, lowercase only
ASCII uppercase, standard FNV-1a-64 fold, then the double fold of byte
43) on every byte string. -/
theorem C4_fnv1a64Hash_matches_spec (l : List Nat) :
    fnv1a64Hash l = fnv1a64RefSpec l := by
  unfold fnv1a64Hash fnv1a64RefSpec stripOneTrailingSlash
  have hstrip :
      (if l.length > 0 ∧ l.getLast? = some 47 then l.dropLast else l) =
        (if l.getLast? = some 47 then l.dropLast else l) := by
    by_cases h : l.getLast? = some 47
    · have hne : l ≠ [] := by
        intro he
        rw [he] at h
        simp at h
      simp [h, List.length_pos.mpr hne]
    · simp [h]
  rw [hstrip]
  simp only [List.foldl_map]
  rfl

/-! ## C6 -/

/-- C6 counterexample: the claim reads: for every non-empty path `p`
and recognized discriminator, `NameHash(p) = NameHash(p ++ "/")`.
With the murmur discriminator and `p = "a/"` (bytes 97 47) the two
calls hash different byte strings (only one trailing slash is
stripped), so the hashes differ. -/
theorem C6_counterexample_double_slash :
    ([97, 47] : List Nat) ≠ [] ∧
    Index.NameHash idxMurmur [97, 47] ≠
      Index.NameHash idxMurmur ([97, 47] ++ [47]) := by
  constructor
  · decide
  · decide

/-- C6 amended: for every index with a recognized discriminator and
every non-empty path `p` that does not already end in a slash,
`NameHash p = NameHash (p ++ "/")`. -/
theorem C6_NameHash_slash_invariant (idx : Index) (p : List Nat)
    (hdirs : idx.Directories ≠ [])
    (_hrec : (idx.Directories.headD default).PathHash = 0xF42A94E69CFF42FE ∨
      (idx.Directories.headD default).PathHash = 0x07E47507B4A92E53)
    (_hne : p ≠ []) (hns : p.getLast? ≠ some 47) :
    idx.NameHash p = idx.NameHash (p ++ [47]) := by
  unfold Index.NameHash
  have h1 : (if p.length > 0 ∧ p.getLast? = some 47 then p.dropLast else p) = p := by
    simp [hns]
  have h2 : (if (p ++ [47]).length > 0 ∧ (p ++ [47]).getLast? = some 47
      then (p ++ [47]).dropLast else (p ++ [47])) = p := by
    rw [if_pos]
    · exact List.dropLast_concat
    · constructor
      · simp
      · rw [List.getLast?_concat]
  rw [if_neg hdirs, if_neg hdirs, h1, h2]

/-- C6 witness: the amended theorem applied to the murmur index and
the one-byte path `"a"`. -/
theorem C6_witness :
    Index.NameHash idxMurmur [97] = Index.NameHash idxMurmur ([97] ++ [47]) :=
  C6_NameHash_slash_invariant idxMurmur [97] (by decide) (Or.inl (by decide))
    (by decide) (by decide)

/-! ## C10 -/

/-- C10: for every open bundle and every offset — negative or beyond
the uncompressed size included — `ReadAt(offset, 0)` succeeds with an
empty slice, because the zero-size case is handled before the bounds
check. -/
theorem C10_ReadAt_zero_size (oodle : List Nat → Int → Except String (List Nat))
    (b : Bundle) (offsetInBundle : Int) (hopen : b.isOpen = true) :
    Bundle.ReadAt oodle b offsetInBundle 0 = .ok [] := by
  unfold Bundle.ReadAt
  rw [hopen]
  simp

/-- C10 witness: reading zero bytes at offset -5 of the scenario-3
bundle succeeds. -/
theorem C10_witness :
    Bundle.ReadAt oodleNever bundle3 (-5) 0 = .ok [] :=
  C10_ReadAt_zero_size oodleNever bundle3 (-5) (by decide)

/-! ## C7 -/

/-- A `ParsePaths` call that returns no error leaves the parsed flag
set. -/
theorem ParsePaths_sets_parsed (idx idx' : Index) (k : Nat)
    (h : Index.ParsePaths idx = (idx', k, none)) : idx'.pathsParsed = true := by
  unfold Index.ParsePaths at h
  by_cases hp : idx.pathsParsed = true
  · rw [if_pos hp] at h
    simp only [Prod.mk.injEq] at h
    rw [← h.1]
    exact hp
  · rw [if_neg hp] at h
    by_cases hd : idx.DirectoryBundleData = none ∨ idx.Directories = []
    · rw [if_pos hd] at h
      simp at h
    · rw [if_neg hd] at h
      cases hloop : parsePathsDirLoop idx (idx.DirectoryBundleData.getD [])
          idx.Directories idx.FilesByPathHash 0 with
      | error v =>
        obtain ⟨files, failed, e⟩ := v
        rw [hloop] at h
        simp at h
      | ok v =>
        obtain ⟨files, failed⟩ := v
        rw [hloop] at h
        simp only [Prod.mk.injEq] at h
        rw [← h.1]

/-- C7: if a `ParsePaths` call succeeds, a second call on the
resulting index is a no-op: it returns the same index unchanged with a
failed count of 0 and no error. -/
theorem C7_ParsePaths_idempotent (idx idx' : Index) (k : Nat)
    (h : Index.ParsePaths idx = (idx', k, none)) :
    Index.ParsePaths idx' = (idx', 0, none) := by
  have hp := ParsePaths_sets_parsed idx idx' k h
  unfold Index.ParsePaths
  rw [if_pos hp]

/-- A small index whose one-command dictionary resolves the single
file record with path `"a"` (bytes `[97]`). -/
def idxParseDemo : Index where
  FilesByPathHash :=
    [(fnv1a64Hash [97],
      { PathHash := fnv1a64Hash [97], BundleIndex := 0, Offset := 0, Size := 5, Path := [] })]
  Directories :=
    [{ PathHash := 0x07E47507B4A92E53, Offset := 0, Size := 6, RecursiveSize := 0 }]
  DirectoryBundleData := some [1, 0, 0, 0, 97, 0]
  pathsParsed := false

/-- C7 witness: the idempotence theorem applied to a concrete index
whose first parse succeeds. -/
theorem C7_witness :
    Index.ParsePaths (Index.ParsePaths idxParseDemo).1 =
      ((Index.ParsePaths idxParseDemo).1, 0, none) := by
  refine C7_ParsePaths_idempotent idxParseDemo _ (Index.ParsePaths idxParseDemo).2.1 ?_
  simp [Index.ParsePaths, parsePathsDirLoop, parsePathsBlockLoop, goSlice,
    idxParseDemo, readI32, readU32le, toI32, readNullTerminatedString,
    readNullTerminatedStringAux, Index.NameHash, fnv1a64Hash, mapLookup,
    mapSetPath]

/-! ## C8 -/

/-- C8: on a parsed index, `GetFileByPath` first looks the name hash up
in `FilesByPathHash` and returns that record (backfilling an empty
`Path`); on a miss it linearly scans the records for an exact path
match; if both fail it returns a not-found error. -/
theorem C8_GetFileByPath_lookup (idx : Index) (path : List Nat) (hsh : Nat)
    (hparsed : idx.pathsParsed = true)
    (hh : idx.NameHash path = .ok hsh) :
    (∀ r, mapLookup idx.FilesByPathHash hsh = some r →
      (idx.GetFileByPath path).2 =
        .ok (if r.Path = [] ∧ path ≠ [] then { r with Path := path } else r)) ∧
    (mapLookup idx.FilesByPathHash hsh = none →
      (∀ e, idx.FilesByPathHash.find? (fun e => e.2.Path == path) = some e →
          (idx.GetFileByPath path).2 = .ok e.2) ∧
      (idx.FilesByPathHash.find? (fun e => e.2.Path == path) = none →
        excIsOk (idx.GetFileByPath path).2 = false)) := by
  unfold Index.GetFileByPath
  rw [if_neg (by simp [hparsed])]
  unfold getFileByPathLookup
  rw [hh]
  dsimp only
  refine ⟨?_, ?_⟩
  · intro r hr
    rw [hr]
    dsimp only
    by_cases hc : r.Path = [] ∧ path ≠ []
    · simp only [if_pos hc]
    · simp only [if_neg hc]
  · intro hnone
    rw [hnone]
    dsimp only
    refine ⟨?_, ?_⟩
    · intro e he
      rw [he]
    · intro hscan
      rw [hscan]
      rfl

/-- A parsed index holding one record with path `"a"`. -/
def idxC8 : Index where
  FilesByPathHash :=
    [(fnv1a64Hash [97],
      { PathHash := fnv1a64Hash [97], BundleIndex := 0, Offset := 0, Size := 5, Path := [97] })]
  Directories :=
    [{ PathHash := 0x07E47507B4A92E53, Offset := 0, Size := 0, RecursiveSize := 0 }]
  DirectoryBundleData := some []
  pathsParsed := true

/-- C8 witness: looking up `"a"` on the concrete parsed index returns
its record through the hash-map branch. -/
theorem C8_witness :
    (Index.GetFileByPath idxC8 [97]).2 =
      .ok { PathHash := fnv1a64Hash [97], BundleIndex := 0, Offset := 0,
            Size := 5, Path := [97] } := by
  have h := (C8_GetFileByPath_lookup idxC8 [97] (fnv1a64Hash [97]) (by decide)
    (by decide)).1
    { PathHash := fnv1a64Hash [97], BundleIndex := 0, Offset := 0, Size := 5, Path := [97] }
    (by decide)
  rw [h]
  decide

/-! ## C9 -/

/-- An index whose single directory block ends in a segment with no
NUL terminator (bytes `[1, 0, 0, 0, 65]`: command 1 followed by an
unterminated byte 65). -/
def idxC9 : Index where
  FilesByPathHash := []
  Directories :=
    [{ PathHash := 0x07E47507B4A92E53, Offset := 0, Size := 5, RecursiveSize := 0 }]
  DirectoryBundleData := some [1, 0, 0, 0, 65]
  pathsParsed := false

/-- C9 counterexample: the claim reads: a string segment that is not
NUL-terminated before the end of its block causes `ParsePaths` to
return an error.  On `idxC9` the segment read fails, yet `ParsePaths`
returns no error — the source swallows the failure with a `break`. -/
theorem C9_counterexample_unterminated_segment_silent :
    excIsOk (readNullTerminatedString (([1, 0, 0, 0, 65] : List Nat).drop 4)) = false ∧
    (Index.ParsePaths idxC9).2.2 = none := by
  constructor
  · decide
  · simp [Index.ParsePaths, parsePathsDirLoop, parsePathsBlockLoop, goSlice,
      idxC9, readI32, readU32le, toI32, readNullTerminatedString,
      readNullTerminatedStringAux]

/-- C9 amended: unresolved candidate paths never abort the dictionary
walk (they only increment the failed count), and the structural
anomalies the claim names — a command stream remnant shorter than 4
bytes, or a segment read that fails — end the block silently with the
tables as they stand, rather than making `ParsePaths` return an
error. -/
theorem C9_ParsePaths_structural_anomalies_silent (idx : Index)
    (rem : List Nat) (tempSegments : List (List Nat)) (isBase : Bool)
    (files : List (Nat × IndexFileRecord)) (failed : Nat) :
    (rem.length < 4 →
      parsePathsBlockLoop idx rem tempSegments isBase files failed =
        .ok (files, failed)) ∧
    (4 ≤ rem.length → readI32 rem 0 ≠ 0 →
      excIsOk (readNullTerminatedString (rem.drop 4)) = false →
      parsePathsBlockLoop idx rem tempSegments isBase files failed =
        .ok (files, failed)) ∧
    (4 ≤ rem.length → readI32 rem 0 ≠ 0 → isBase = false →
      ∀ segment rest2 hsh,
        readNullTerminatedString (rem.drop 4) = .ok (segment, rest2) →
        (tempSegments.length : Int) ≤ readI32 rem 0 - 1 →
        Index.NameHash idx segment = .ok hsh →
        mapLookup files hsh = none →
        parsePathsBlockLoop idx rem tempSegments isBase files failed =
          parsePathsBlockLoop idx rest2 tempSegments isBase files (failed + 1)) := by
  refine ⟨?_, ?_, ?_⟩
  · intro h4
    unfold parsePathsBlockLoop
    rw [dif_pos h4]
  · intro h4 hppi hbad
    unfold parsePathsBlockLoop
    rw [dif_neg (by omega)]
    simp only [if_neg hppi]
    split
    · rfl
    · rename_i segment rest2 heq
      rw [heq] at hbad
      simp [excIsOk] at hbad
  · intro h4 hppi hbase segment rest2 hsh hnts hge hhash hmiss
    subst hbase
    conv_lhs => unfold parsePathsBlockLoop
    rw [dif_neg (by omega)]
    simp only [if_neg hppi]
    split
    · rename_i heq
      rw [hnts] at heq
      cases heq
    · rename_i seg2 rest2x heq
      rw [hnts] at heq
      have hpair : segment = seg2 ∧ rest2 = rest2x := by
        injection heq with heqp
        exact ⟨congrArg Prod.fst heqp, congrArg Prod.snd heqp⟩
      obtain ⟨hseg, hrest⟩ := hpair
      subst hseg
      subst hrest
      rw [if_neg (by omega)]
      simp only [Bool.false_eq_true, if_false]
      rw [hhash]
      dsimp only
      rw [hmiss]

/-! ## C3 -/

/-- Reading the compressed-size table of a laid-out bundle at a valid
index yields the corresponding chunk length. -/
theorem getD_map_length_cast (Cs : List (List Nat)) (i : Nat) (h : i < Cs.length) :
    (Cs.map fun c => (c.length : Int)).getD i 0 = ((Cs.getD i []).length : Int) := by
  have hx : Cs[i]? = some Cs[i] := List.getElem?_eq_getElem h
  simp [List.getD_eq_getElem?_getD, List.getElem?_map, hx]

/-- One more chunk of prefix in the flattened layout. -/
theorem flatten_take_succ (Cs : List (List Nat)) (i : Nat) (h : i < Cs.length) :
    (Cs.take (i + 1)).flatten = (Cs.take i).flatten ++ Cs.getD i [] := by
  have hx : Cs[i]? = some Cs[i] := List.getElem?_eq_getElem h
  rw [List.take_succ, List.flatten_append, hx]
  simp [List.getD_eq_getElem?_getD, hx]

/-- Split the flattened chunk list at chunk `i`. -/
theorem flatten_decomp (Cs : List (List Nat)) (i : Nat) (h : i < Cs.length) :
    Cs.flatten = (Cs.take i).flatten ++ (Cs.getD i [] ++ (Cs.drop (i + 1)).flatten) := by
  have hx : Cs[i]? = some Cs[i] := List.getElem?_eq_getElem h
  conv_lhs => rw [← List.take_append_drop i Cs]
  rw [List.flatten_append, List.drop_eq_getElem_cons h, List.flatten_cons]
  simp [List.getD_eq_getElem?_getD, hx]

/-- Total length of a chunk list whose non-last chunks all have length
`s`, in terms of the last chunk. -/
theorem flatten_length_last (Cs : List (List Nat)) (s : Int)
    (h : ∀ j, j + 1 < Cs.length → ((Cs.getD j []).length : Int) = s)
    (hne : Cs ≠ []) :
    (Cs.flatten.length : Int) =
      s * ((Cs.length : Int) - 1) + ((Cs.getD (Cs.length - 1) []).length : Int) := by
  induction Cs with
  | nil => cases hne rfl
  | cons a tl ih =>
    cases tl with
    | nil => simp
    | cons b tl2 =>
      have ha : ((a.length : Int)) = s := by
        have := h 0 (by simp)
        simpa using this
      have htl : ∀ j, j + 1 < (b :: tl2).length →
          (((b :: tl2).getD j []).length : Int) = s := by
        intro j hj
        have := h (j + 1) (by simp at hj ⊢; omega)
        simpa using this
      have H := ih htl (by simp)
      have hidx : (a :: b :: tl2).getD ((a :: b :: tl2).length - 1) [] =
          (b :: tl2).getD ((b :: tl2).length - 1) [] := by
        simp
      rw [hidx]
      have hflat : ((a :: b :: tl2).flatten.length : Int) =
          (a.length : Int) + ((b :: tl2).flatten.length : Int) := by
        simp
      rw [hflat, ha, H]
      have hlen : ((a :: b :: tl2).length : Int) = ((b :: tl2).length : Int) + 1 := by
        simp
      rw [hlen]
      ring

/-- The per-chunk uncompressed target of a laid-out bundle equals the
chunk length. -/
theorem chunkTarget_eq_length (hdr : BundleHeader) (Cs : List (List Nat))
    (hcc : hdr.ChunkCount = (Cs.length : Int))
    (hcs : ∀ j, j + 1 < Cs.length → ((Cs.getD j []).length : Int) = hdr.ChunkSize)
    (hucs : hdr.UncompressedSize = (Cs.flatten.length : Int))
    (i : Nat) (hi : i < Cs.length) :
    chunkTarget hdr i = ((Cs.getD i []).length : Int) := by
  unfold chunkTarget
  rw [hcc, Int.toNat_ofNat]
  by_cases hlast : i = Cs.length - 1
  · rw [if_pos hlast]
    unfold BundleHeader.GetLastChunkUncompressedSize
    rw [hcc, if_neg (by omega), hucs,
      flatten_length_last Cs hdr.ChunkSize hcs
        (by intro he; rw [he] at hi; simp at hi),
      hlast]
    ring
  · rw [if_neg hlast]
    exact (hcs i (by omega)).symm

/-- `readFileBytes` at the exact start of a laid-out chunk returns that
chunk. -/
theorem readFileBytes_exact (pre c rest2 : List Nat) :
    readFileBytes (pre ++ (c ++ rest2)) ((pre.length : Int)) ((c.length : Int)) =
      some c := by
  unfold readFileBytes
  rw [if_pos]
  · rw [Int.toNat_ofNat, Int.toNat_ofNat, List.drop_left, List.take_left]
  · refine ⟨Int.natCast_nonneg _, Int.natCast_nonneg _, ?_⟩
    rw [Int.toNat_ofNat, Int.toNat_ofNat]
    simp

/-- Writing one chunk at the end of the filled prefix of the output
buffer extends the prefix. -/
theorem writeAt_fill (A c : List Nat) (T : Nat) (hT : A.length + c.length ≤ T) :
    writeAt (A ++ List.replicate (T - A.length) 0) A.length c =
      (A ++ c) ++ List.replicate (T - (A.length + c.length)) 0 := by
  unfold writeAt
  rw [List.take_left, List.drop_append, List.drop_replicate]
  simp [List.append_assoc, Nat.sub_sub]

/-- The `ReadFull` loop of a `NONE` bundle laid out from the chunk list
`Cs`: starting after `i` chunks already copied, the loop completes the
output buffer to the concatenation of all chunks. -/
theorem readFullLoop_none_layout
    (oodle : List Nat → Int → Except String (List Nat)) (b : Bundle)
    (Cs : List (List Nat)) (pre post : List Nat)
    (hcomp : b.Header.Compressor = 3)
    (hcc : b.Header.ChunkCount = (Cs.length : Int))
    (hsizes : b.CompressedChunkSizes = Cs.map fun c => (c.length : Int))
    (hcs : ∀ j, j + 1 < Cs.length → ((Cs.getD j []).length : Int) = b.Header.ChunkSize)
    (hucs : b.Header.UncompressedSize = (Cs.flatten.length : Int))
    (hfile : b.fileData = pre ++ Cs.flatten ++ post) :
    ∀ (r i : Nat), r + i = Cs.length →
      readFullLoop oodle b r i
        ((pre.length : Int) + ((Cs.take i).flatten.length : Int))
        (((Cs.take i).flatten.length : Int))
        ((Cs.take i).flatten ++
          List.replicate (Cs.flatten.length - (Cs.take i).flatten.length) 0) =
      .ok Cs.flatten := by
  intro r
  induction r with
  | zero =>
    intro i hi
    have hieq : i = Cs.length := by omega
    subst hieq
    rw [List.take_of_length_le (le_refl _)]
    simp [readFullLoop]
  | succ r ih =>
    intro i hi
    have hilt : i < Cs.length := by omega
    have hdecomp := flatten_decomp Cs i hilt
    have hAle : (Cs.take i).flatten.length + (Cs.getD i []).length ≤
        Cs.flatten.length := by
      rw [hdecomp]
      simp
    have hcsize : b.CompressedChunkSizes.getD i 0 = ((Cs.getD i []).length : Int) := by
      rw [hsizes]
      exact getD_map_length_cast Cs i hilt
    have htarget : chunkTarget b.Header i = ((Cs.getD i []).length : Int) :=
      chunkTarget_eq_length b.Header Cs hcc hcs hucs i hilt
    simp only [readFullLoop]
    rw [hcsize, htarget]
    rw [if_neg (by omega)]
    rw [if_neg (by omega)]
    by_cases hCi0 : (Cs.getD i []).length = 0
    · have hCnil : Cs.getD i [] = [] := List.eq_nil_of_length_eq_zero hCi0
      rw [if_neg (by omega)]
      rw [if_pos (by omega)]
      have H := ih (i + 1) (by omega)
      rw [flatten_take_succ Cs i hilt, hCnil, List.append_nil] at H
      rw [hCi0]
      simpa using H
    · rw [if_neg (by omega)]
      rw [if_neg (by omega)]
      rw [if_neg (by omega)]
      have hoff : ((pre.length : Int) + ((Cs.take i).flatten.length : Int)) =
          (((pre ++ (Cs.take i).flatten).length : Nat) : Int) := by
        push_cast [List.length_append]
        ring
      have hfile2 : b.fileData = (pre ++ (Cs.take i).flatten) ++
          (Cs.getD i [] ++ ((Cs.drop (i + 1)).flatten ++ post)) := by
        rw [hfile, hdecomp]
        simp [List.append_assoc]
      rw [hoff, hfile2, readFileBytes_exact]
      dsimp only
      rw [if_neg (by
        simp only [List.length_append, List.length_replicate]
        push_cast
        omega)]
      rw [if_pos hcomp]
      rw [if_neg (by simp)]
      have H := ih (i + 1) (by omega)
      rw [flatten_take_succ Cs i hilt] at H
      have harg1 : (((pre ++ (Cs.take i).flatten).length : Nat) : Int) +
          ((Cs.getD i []).length : Int) =
          ((pre.length : Int) + (((Cs.take i).flatten ++ Cs.getD i []).length : Int)) := by
        push_cast [List.length_append]
        ring
      have harg2 : (((Cs.take i).flatten.length : Nat) : Int) +
          ((Cs.getD i []).length : Int) =
          ((((Cs.take i).flatten ++ Cs.getD i []).length : Nat) : Int) := by
        push_cast [List.length_append]
        ring
      have harg3 : writeAt
          ((Cs.take i).flatten ++
            List.replicate (Cs.flatten.length - (Cs.take i).flatten.length) 0)
          (((Cs.take i).flatten.length : Int)).toNat (Cs.getD i []) =
          ((Cs.take i).flatten ++ Cs.getD i []) ++
            List.replicate
              (Cs.flatten.length - ((Cs.take i).flatten ++ Cs.getD i []).length) 0 := by
        rw [Int.toNat_ofNat, writeAt_fill _ _ _ hAle, List.length_append]
      rw [harg1, harg2, harg3]
      exact H

/-- If the `ReadFull` loop of a `NONE` bundle succeeds, every stored
compressed chunk size it visited equals the chunk uncompressed
target. -/
theorem readFullLoop_ok_sizes
    (oodle : List Nat → Int → Except String (List Nat)) (b : Bundle)
    (hcomp : b.Header.Compressor = 3) :
    ∀ (r i : Nat) (fo oo : Int) (buf d : List Nat),
      readFullLoop oodle b r i fo oo buf = .ok d →
      ∀ j, i ≤ j → j < i + r →
        b.CompressedChunkSizes.getD j 0 = chunkTarget b.Header j := by
  intro r
  induction r with
  | zero => intro i fo oo buf d h j hij hlt; omega
  | succ r ih =>
    intro i fo oo buf d h j hij hlt
    simp only [readFullLoop] at h
    by_cases hcs0 : b.CompressedChunkSizes.getD i 0 < 0
    · rw [if_pos hcs0] at h; exact absurd h (by simp)
    · rw [if_neg hcs0] at h
      by_cases ht0 : chunkTarget b.Header i < 0
      · rw [if_pos ht0] at h; exact absurd h (by simp)
      · rw [if_neg ht0] at h
        by_cases h1 : chunkTarget b.Header i = 0 ∧ b.CompressedChunkSizes.getD i 0 ≠ 0
        · rw [if_pos h1] at h; exact absurd h (by simp)
        · rw [if_neg h1] at h
          by_cases h2 : chunkTarget b.Header i = 0 ∧ b.CompressedChunkSizes.getD i 0 = 0
          · rw [if_pos h2] at h
            by_cases hji : j = i
            · subst hji; rw [h2.2, h2.1]
            · exact ih _ _ _ _ _ h j (by omega) (by omega)
          · rw [if_neg h2] at h
            by_cases h3 : b.CompressedChunkSizes.getD i 0 = 0
            · rw [if_pos h3] at h; exact absurd h (by simp)
            · rw [if_neg h3] at h
              cases hread : readFileBytes b.fileData fo (b.CompressedChunkSizes.getD i 0) with
              | none => rw [hread] at h; exact absurd h (by simp)
              | some chunkBytes =>
                rw [hread] at h
                dsimp only at h
                by_cases h4 : oo + chunkTarget b.Header i > (buf.length : Int)
                · rw [if_pos h4] at h; exact absurd h (by simp)
                · rw [if_neg h4] at h
                  rw [if_pos hcomp] at h
                  by_cases h5 : b.CompressedChunkSizes.getD i 0 ≠ chunkTarget b.Header i
                  · rw [if_pos h5] at h; exact absurd h (by simp)
                  · rw [if_neg h5] at h
                    by_cases hji : j = i
                    · subst hji; exact not_ne_iff.mp h5
                    · exact ih _ _ _ _ _ h j (by omega) (by omega)

/-- C3 amended: for a bundle laid out from a chunk list `Cs` with
compressor `NONE` (uncompressed size = total length, chunk count =
number of chunks, data after the 60 + 4n byte prefix), `ReadFull`
returns the concatenation of the chunks when every stored compressed
size equals the chunk length and every non-last chunk has length
`chunk_size`; and when the total uncompressed size is positive and
some stored compressed size differs from its per-chunk uncompressed
target, `ReadFull` returns an error.  (When the uncompressed size is
0 `ReadFull` returns empty without validating the chunk sizes — the
counterexample below — which is the one correction to the claim.) -/
theorem C3_ReadFull_none_roundtrip
    (oodle : List Nat → Int → Except String (List Nat)) (b : Bundle)
    (Cs : List (List Nat)) (pre post : List Nat)
    (hopen : b.isOpen = true) (hcache : b.cachedContent = none)
    (hcomp : b.Header.Compressor = 3)
    (hcc : b.Header.ChunkCount = (Cs.length : Int))
    (hucs : b.Header.UncompressedSize = (Cs.flatten.length : Int))
    (hfile : b.fileData = pre ++ Cs.flatten ++ post)
    (hpre : pre.length = 60 + 4 * Cs.length) :
    ((b.CompressedChunkSizes = Cs.map fun c => (c.length : Int)) →
      (∀ j, j + 1 < Cs.length →
        ((Cs.getD j []).length : Int) = b.Header.ChunkSize) →
      Bundle.ReadFull oodle b = .ok Cs.flatten) ∧
    (0 < b.Header.UncompressedSize →
      (∃ i, i < Cs.length ∧
        b.CompressedChunkSizes.getD i 0 ≠ chunkTarget b.Header i) →
      excIsOk (Bundle.ReadFull oodle b) = false) := by
  constructor
  · intro hsizes hcs
    unfold Bundle.ReadFull
    rw [if_neg (by rw [hopen]; simp)]
    by_cases h0 : b.Header.UncompressedSize = 0
    · rw [if_pos h0]
      have hlen0 : Cs.flatten.length = 0 := by
        rw [hucs] at h0
        exact_mod_cast h0
      rw [List.eq_nil_of_length_eq_zero hlen0]
    · rw [if_neg h0]
      rw [if_neg (by rw [hucs]; omega)]
      rw [hcache]
      dsimp only
      have hCsne : Cs ≠ [] := by
        intro he
        apply h0
        rw [hucs, he]
        simp
      have hCslen : 0 < Cs.length := List.length_pos.mpr hCsne
      rw [if_neg (by rw [hcc]; omega)]
      rw [if_neg (by
        rw [hsizes, hcc, Int.toNat_ofNat]
        simp)]
      have H := readFullLoop_none_layout oodle b Cs pre post hcomp hcc hsizes
        hcs hucs hfile Cs.length 0 (by omega)
      simp only [List.take_zero, List.flatten_nil, List.length_nil,
        Nat.cast_zero, add_zero, Nat.sub_zero, List.nil_append] at H
      have e1 : b.Header.ChunkCount.toNat = Cs.length := by
        rw [hcc, Int.toNat_ofNat]
      have e2 : (60 : Int) + b.Header.ChunkCount * 4 = (pre.length : Int) := by
        rw [hcc, hpre]
        push_cast
        ring
      have e3 : b.Header.UncompressedSize.toNat = Cs.flatten.length := by
        rw [hucs, Int.toNat_ofNat]
      rw [e1, e2, e3]
      exact H
  · intro hpos hex
    obtain ⟨i, hilt, hne⟩ := hex
    cases hres : Bundle.ReadFull oodle b with
    | error e => simp [excIsOk]
    | ok d =>
      exfalso
      unfold Bundle.ReadFull at hres
      rw [if_neg (by rw [hopen]; simp)] at hres
      rw [if_neg (by omega)] at hres
      rw [if_neg (by omega)] at hres
      rw [hcache] at hres
      dsimp only at hres
      by_cases hc0 : b.Header.ChunkCount = 0
      · rw [if_pos hc0] at hres; exact absurd hres (by simp)
      · rw [if_neg hc0] at hres
        by_cases hcl : 0 < b.Header.ChunkCount ∧
            b.CompressedChunkSizes.length ≠ b.Header.ChunkCount.toNat
        · rw [if_pos hcl] at hres; exact absurd hres (by simp)
        · rw [if_neg hcl] at hres
          have := readFullLoop_ok_sizes oodle b hcomp _ _ _ _ _ _ hres i
            (by omega) (by rw [hcc, Int.toNat_ofNat]; omega)
          exact hne this

/-- A `NONE` bundle whose single chunk is empty (uncompressed size 0)
but whose stored compressed size, 5, differs from the chunk target 0. -/
def bundleZeroChunk : Bundle where
  isOpen := true
  fileData := List.replicate 70 0
  Header :=
    { UncompressedSize := 0, CompressedSize := 0, HeadSize := 52
      Compressor := 3, Unknown1 := 1, UncompressedSizeLong := 0
      CompressedSizeLong := 0, ChunkCount := 1, ChunkSize := 0
      Unknown3 := 0, Unknown4 := 0, Unknown5 := 0, Unknown6 := 0 }
  CompressedChunkSizes := [5]
  cachedContent := none

/-- C3 counterexample: the claim reads: when a stored compressed size
differs from its uncompressed target, `ReadFull` returns an error.  On
`bundleZeroChunk` chunk 0 stores compressed size 5 against target 0,
yet `ReadFull` succeeds with the empty result, because the
`uncompressed_size = 0` early return precedes all chunk validation. -/
theorem C3_counterexample_zero_size_skips_validation :
    bundleZeroChunk.CompressedChunkSizes.getD 0 0 ≠
      chunkTarget bundleZeroChunk.Header 0 ∧
    Bundle.ReadFull oodleNever bundleZeroChunk = .ok [] := by
  constructor
  · decide
  · decide

/-- The scenario-3 bundle with its second stored chunk size corrupted
from 50 to 60. -/
def bundle3BadSize : Bundle :=
  { bundle3 with CompressedChunkSizes := [100, 60] }

/-- C3 witness: the amended round-trip theorem applied to the concrete
scenario-3 bundle (two `NONE` chunks, 100 bytes of 65 and 50 bytes of
66), and its error half applied to the same bundle with a corrupted
stored chunk size. -/
theorem C3_witness :
    Bundle.ReadFull oodleNever bundle3 = .ok scenario3Data ∧
    excIsOk (Bundle.ReadFull oodleNever bundle3BadSize) = false := by
  have h1 := (C3_ReadFull_none_roundtrip oodleNever bundle3
    [List.replicate 100 65, List.replicate 50 66] (scenario3Head 56) []
    (by decide) (by decide) (by decide) (by decide) (by decide) (by decide)
    (by decide)).1 (by decide)
    (by
      intro j hj
      have hj0 : j = 0 := by
        simp at hj
        omega
      subst hj0
      decide)
  have h2 := (C3_ReadFull_none_roundtrip oodleNever bundle3BadSize
    [List.replicate 100 65, List.replicate 50 66] (scenario3Head 56) []
    (by decide) (by decide) (by decide) (by decide) (by decide) (by decide)
    (by decide)).2 (by decide) ⟨1, by decide, by decide⟩
  refine ⟨?_, h2⟩
  rw [h1]
  decide

/-! ## C5 -/

/-- `readFileBytes` returns exactly the requested number of bytes. -/
theorem readFileBytes_length (file : List Nat) (off size : Int) (l : List Nat)
    (h : readFileBytes file off size = some l) : l.length = size.toNat := by
  unfold readFileBytes at h
  split at h
  · rename_i hc
    injection h with h
    rw [← h]
    simp
    omega
  · cases h

/-- Overwriting inside the buffer preserves its length. -/
theorem writeAt_length (buf : List Nat) (off : Nat) (c : List Nat)
    (h : off + c.length ≤ buf.length) :
    (writeAt buf off c).length = buf.length := by
  simp [writeAt]
  omega

/-- A successful `ReadFull` loop run started at a nonnegative output
offset preserves the output buffer length. -/
theorem readFullLoop_length
    (oodle : List Nat → Int → Except String (List Nat)) (b : Bundle) :
    ∀ (r i : Nat) (fo oo : Int) (buf d : List Nat), 0 ≤ oo →
      readFullLoop oodle b r i fo oo buf = .ok d → d.length = buf.length := by
  intro r
  induction r with
  | zero =>
    intro i fo oo buf d hoo h
    simp only [readFullLoop] at h
    injection h with h
    rw [h]
  | succ r ih =>
    intro i fo oo buf d hoo h
    simp only [readFullLoop] at h
    by_cases hcs0 : b.CompressedChunkSizes.getD i 0 < 0
    · rw [if_pos hcs0] at h; exact absurd h (by simp)
    · rw [if_neg hcs0] at h
      by_cases ht0 : chunkTarget b.Header i < 0
      · rw [if_pos ht0] at h; exact absurd h (by simp)
      · rw [if_neg ht0] at h
        by_cases h1 : chunkTarget b.Header i = 0 ∧ b.CompressedChunkSizes.getD i 0 ≠ 0
        · rw [if_pos h1] at h; exact absurd h (by simp)
        · rw [if_neg h1] at h
          by_cases h2 : chunkTarget b.Header i = 0 ∧ b.CompressedChunkSizes.getD i 0 = 0
          · rw [if_pos h2] at h
            exact ih _ _ _ _ _ hoo h
          · rw [if_neg h2] at h
            by_cases h3 : b.CompressedChunkSizes.getD i 0 = 0
            · rw [if_pos h3] at h; exact absurd h (by simp)
            · rw [if_neg h3] at h
              cases hread : readFileBytes b.fileData fo
                  (b.CompressedChunkSizes.getD i 0) with
              | none => rw [hread] at h; exact absurd h (by simp)
              | some chunkBytes =>
                rw [hread] at h
                dsimp only at h
                by_cases h4 : oo + chunkTarget b.Header i > (buf.length : Int)
                · rw [if_pos h4] at h; exact absurd h (by simp)
                · rw [if_neg h4] at h
                  have hclen := readFileBytes_length _ _ _ _ hread
                  have htpos : 0 < chunkTarget b.Header i := by omega
                  by_cases h5 : b.Header.Compressor = 3
                  · rw [if_pos h5] at h
                    by_cases h6 : b.CompressedChunkSizes.getD i 0 ≠ chunkTarget b.Header i
                    · rw [if_pos h6] at h; exact absurd h (by simp)
                    · rw [if_neg h6] at h
                      have hct : b.CompressedChunkSizes.getD i 0 =
                          chunkTarget b.Header i := not_ne_iff.mp h6
                      have hwa : (writeAt buf oo.toNat chunkBytes).length = buf.length := by
                        apply writeAt_length
                        rw [hclen, hct]
                        omega
                      have := ih _ _ _ _ _ (by omega) h
                      rw [this, hwa]
                  · rw [if_neg h5] at h
                    cases hdec : oodle chunkBytes (chunkTarget b.Header i) with
                    | error e => rw [hdec] at h; exact absurd h (by simp)
                    | ok dec =>
                      rw [hdec] at h
                      dsimp only at h
                      by_cases h7 : dec.length ≠ (chunkTarget b.Header i).toNat
                      · rw [if_pos h7] at h; exact absurd h (by simp)
                      · rw [if_neg h7] at h
                        have hdlen : dec.length = (chunkTarget b.Header i).toNat :=
                          not_ne_iff.mp h7
                        have hwa2 : (writeAt buf oo.toNat dec).length = buf.length := by
                          apply writeAt_length
                          rw [hdlen]
                          omega
                        have := ih _ _ _ _ _ (by omega) h
                        rw [this, hwa2]

/-- A successful uncached `ReadFull` returns exactly
`UncompressedSize` bytes. -/
theorem ReadFull_length (oodle : List Nat → Int → Except String (List Nat))
    (b : Bundle) (d : List Nat) (hcache : b.cachedContent = none)
    (h : Bundle.ReadFull oodle b = .ok d) :
    d.length = b.Header.UncompressedSize.toNat := by
  unfold Bundle.ReadFull at h
  split at h
  · cases h
  · split at h
    · rename_i h0
      injection h with h
      rw [← h, h0]
      simp
    · split at h
      · cases h
      · rw [hcache] at h
        dsimp only at h
        split at h
        · cases h
        · split at h
          · cases h
          · have := readFullLoop_length oodle b _ _ _ _ _ _ (le_refl 0) h
            rw [this]
            simp

/-- A successful `ReadFull` implies a nonnegative uncompressed size. -/
theorem ReadFull_ok_nonneg (oodle : List Nat → Int → Except String (List Nat))
    (b : Bundle) (d : List Nat) (h : Bundle.ReadFull oodle b = .ok d) :
    0 ≤ b.Header.UncompressedSize := by
  unfold Bundle.ReadFull at h
  split at h
  · cases h
  · split at h
    · rename_i h0
      omega
    · split at h
      · cases h
      · rename_i h1 h2
        omega

/-- C5: for an open uncached bundle whose full decode succeeds with
`d`, `ReadAt(offset, size)` with `0 ≤ offset`, `0 < size` and
`offset + size ≤ uncompressed_size` returns exactly the slice
`d[offset .. offset + size)`; with `0 < size`, a negative offset or a
window past `uncompressed_size` (within the int32 range) yields an
error.  The range hypotheses keep every value inside the signed 32-bit
domain of the Go code. -/
theorem C5_ReadAt_is_slice_of_ReadFull
    (oodle : List Nat → Int → Except String (List Nat)) (b : Bundle)
    (offsetInBundle sizeInBundle : Int) (d : List Nat)
    (hopen : b.isOpen = true) (hcache : b.cachedContent = none)
    (hfull : Bundle.ReadFull oodle b = .ok d)
    (_hu32 : b.Header.UncompressedSize ≤ 2147483647)
    (_hoff32 : -2147483648 ≤ offsetInBundle ∧ offsetInBundle ≤ 2147483647)
    (_hsize32 : sizeInBundle ≤ 2147483647) :
    (0 ≤ offsetInBundle → 0 < sizeInBundle →
      offsetInBundle + sizeInBundle ≤ b.Header.UncompressedSize →
      Bundle.ReadAt oodle b offsetInBundle sizeInBundle =
        .ok ((d.drop offsetInBundle.toNat).take sizeInBundle.toNat)) ∧
    (0 < sizeInBundle →
      (offsetInBundle < 0 ∨
        (b.Header.UncompressedSize < offsetInBundle + sizeInBundle ∧
          offsetInBundle + sizeInBundle ≤ 2147483647)) →
      excIsOk (Bundle.ReadAt oodle b offsetInBundle sizeInBundle) = false) := by
  constructor
  · intro hoff hsize hbound
    unfold Bundle.ReadAt
    rw [if_neg (by rw [hopen]; simp)]
    rw [if_neg (by omega)]
    rw [if_neg (by omega)]
    rw [if_neg (by omega)]
    rw [hfull]
    dsimp only
    have hlen := ReadFull_length oodle b d hcache hfull
    have hnn := ReadFull_ok_nonneg oodle b d hfull
    rw [if_neg (by
      rw [hlen]
      rw [Int.toNat_of_nonneg hnn]
      omega)]
  · intro hsize hbad
    unfold Bundle.ReadAt
    rw [if_neg (by rw [hopen]; simp)]
    rw [if_neg (by omega)]
    rw [if_neg (by omega)]
    rw [if_pos (by omega)]
    rfl

/-- C5 witness: on the scenario-3 bundle, `ReadAt(90, 20)` returns the
boundary-crossing slice of the decoded data, and `ReadAt(140, 11)`
(running one byte past the end) fails. -/
theorem C5_witness :
    Bundle.ReadAt oodleNever bundle3 90 20 =
      .ok ((scenario3Data.drop 90).take 20) ∧
    excIsOk (Bundle.ReadAt oodleNever bundle3 140 11) = false := by
  have hfull : Bundle.ReadFull oodleNever bundle3 = .ok scenario3Data := by
    decide
  constructor
  · exact (C5_ReadAt_is_slice_of_ReadFull oodleNever bundle3 90 20 scenario3Data
      (by decide) (by decide) hfull (by decide) (by decide) (by decide)).1
      (by decide) (by decide) (by decide)
  · exact (C5_ReadAt_is_slice_of_ReadFull oodleNever bundle3 140 11 scenario3Data
      (by decide) (by decide) hfull (by decide) (by decide) (by decide)).2
      (by decide) (Or.inr (by decide))

/-- C9 witness: the amended theorem applied to the concrete block
whose segment lacks its NUL terminator: the loop ends silently. -/
theorem C9_witness :
    parsePathsBlockLoop idxC9 [1, 0, 0, 0, 65] [] false [] 0 = .ok ([], 0) :=
  (C9_ParsePaths_structural_anomalies_silent idxC9 [1, 0, 0, 0, 65] [] false [] 0).2.1
    (by decide) (by decide) (by decide)
